import Mathlib

/-!
Verification development for the App Store Connect token encoder and notary
submission client (`apple-codesign/src/app_store_connect.rs`).

The Rust source is embedded shallowly:

* machine integers (`u64`) become `Nat` with explicit `% 2 ^ 64` at the one
  arithmetic operation the source performs (`now + duration`, which wraps in a
  release build);
* the signed JWT string produced by `jsonwebtoken::encode` is represented by
  the data that determines it: the header, the claims and the signing key;
* the HTTP transport is externalized: each client operation takes the
  response(s) the transport would deliver as input and returns, alongside the
  result, the updated client state and the list of requests it issued;
* JSON bodies are modelled at the `serde_json::Value` level (an inductive
  `Json`); the `#[derive(Serialize)]` / `#[derive(Deserialize)]` instances with
  `rename_all = "camelCase"` become explicit `toJson` / `fromJson` functions;
* the filesystem is a function from path strings to optional file contents.
-/

set_option autoImplicit false

namespace AppStoreConnect

/-- JSON values, the model of `serde_json::Value`. -/
inductive Json where
  | null : Json
  | bool (b : Bool) : Json
  | num (n : Int) : Json
  | str (s : String) : Json
  | arr (elements : List Json) : Json
  | obj (fields : List (String × Json)) : Json
  deriving Inhabited

/-- Look up a field of a JSON object by name (first occurrence wins). -/
def Json.getField : List (String × Json) → String → Option Json
  | [], _ => none
  | (k, v) :: rest, key => if k = key then some v else Json.getField rest key

/-- Extract a JSON string. -/
def Json.asStr : Json → Option String
  | .str s => some s
  | _ => none

/-- Modelled from the spec: the crate-level error enum `AppleCodesignError` is
declared outside this source file; only the variants this file constructs are
named in the source.  `ioError` stands for a propagated filesystem error and
`jsonDecodeError` for a propagated response-deserialization error (the spec:
all failures are typed/structured, never silent). -/
inductive AppleCodesignError where
  | appStoreConnectApiKeyNotFound : AppleCodesignError
  | notarizeIncomplete : AppleCodesignError
  | notarizeInvalid : AppleCodesignError
  | notarizeRejected (code : Int) (message : String) : AppleCodesignError
  | notarizeServerError : AppleCodesignError
  | ioError : AppleCodesignError
  | jsonDecodeError : AppleCodesignError
  deriving DecidableEq

/-- `2 ^ 64`, the modulus of Rust `u64` arithmetic. -/
def U64_MOD : Nat := 2 ^ 64

/-- `jsonwebtoken::EncodingKey`: opaque signing key material. -/
structure EncodingKey where
  material : List Nat
  deriving DecidableEq

/-- `EncodingKey::from_ec_pem` (external library; claims do not depend on PEM
validity, so parsing is modelled as wrapping the raw bytes). -/
def EncodingKey.from_ec_pem (pem_data : List Nat) : EncodingKey :=
  ⟨pem_data⟩

/-- `jsonwebtoken::Algorithm` (the variants this source touches). -/
inductive Algorithm where
  | ES256 : Algorithm
  | HS256 : Algorithm
  deriving DecidableEq

/-- `jsonwebtoken::Header`, restricted to the fields the source sets. -/
structure Header where
  kid : Option String
  alg : Algorithm
  deriving DecidableEq

/-- The JWT claims struct `ConnectTokenRequest`. -/
structure ConnectTokenRequest where
  iss : String
  iat : Nat
  exp : Nat
  aud : String
  deriving DecidableEq

/-- `ConnectTokenEncoder`: key id, issuer id and signing key. -/
structure ConnectTokenEncoder where
  key_id : String
  issuer_id : String
  encoding_key : EncodingKey
  deriving DecidableEq

/-- An `AppStoreConnectToken` is a signed JWT string; it is represented by the
data that determines it: the header, the claims and the key that signed it. -/
structure AppStoreConnectToken where
  header : Header
  claims : ConnectTokenRequest
  key : EncodingKey
  deriving DecidableEq

/-- `ConnectTokenEncoder::from_jwt_encoding_key`. -/
def ConnectTokenEncoder.from_jwt_encoding_key (key_id issuer_id : String)
    (encoding_key : EncodingKey) : ConnectTokenEncoder :=
  ⟨key_id, issuer_id, encoding_key⟩

/-- `ConnectTokenEncoder::from_ecdsa_pem`. -/
def ConnectTokenEncoder.from_ecdsa_pem (key_id issuer_id : String)
    (pem_data : List Nat) : Except AppleCodesignError ConnectTokenEncoder :=
  .ok (ConnectTokenEncoder.from_jwt_encoding_key key_id issuer_id
    (EncodingKey.from_ec_pem pem_data))

/-- The filesystem, as seen by the source: a map from path strings to optional
file contents.  `Path::exists` is `(fs path).isSome`. -/
def FileSystem : Type := String → Option (List Nat)

/-- `ConnectTokenEncoder::from_ecdsa_pem_path`: read the file, then parse. -/
def ConnectTokenEncoder.from_ecdsa_pem_path (fs : FileSystem)
    (key_id issuer_id path : String) : Except AppleCodesignError ConnectTokenEncoder :=
  match fs path with
  | some data => ConnectTokenEncoder.from_ecdsa_pem key_id issuer_id data
  | none => .error .ioError

/-- `Path::join`. -/
def path_join (dir entry : String) : String :=
  dir ++ "/" ++ entry

/-- The `AuthKey_<apiKey>.p8` filename pattern. -/
def auth_key_filename (key_id : String) : String :=
  "AuthKey_" ++ key_id ++ ".p8"

/-- The ordered search-path list built by `from_api_key_id`: the current
working directory joined with `private_keys`, then — only when a home
directory resolves — `~/private_keys`, `~/.private_keys` and
`~/.appstoreconnect/private_keys`. -/
def search_paths (cwd : String) (home : Option String) : List String :=
  [path_join cwd "private_keys"] ++
    (match home with
     | some h =>
         [path_join h "private_keys",
          path_join h ".private_keys",
          path_join (path_join h ".appstoreconnect") "private_keys"]
     | none => [])

/-- The search loop of `from_api_key_id`: the first path whose candidate file
exists is loaded; the not-found error is returned only after the list is
exhausted. -/
def search_auth_key (fs : FileSystem) (key_id issuer_id : String) :
    List String → Except AppleCodesignError ConnectTokenEncoder
  | [] => .error .appStoreConnectApiKeyNotFound
  | p :: rest =>
    let candidate := path_join p (auth_key_filename key_id)
    if (fs candidate).isSome then
      ConnectTokenEncoder.from_ecdsa_pem_path fs key_id issuer_id candidate
    else
      search_auth_key fs key_id issuer_id rest

/-- `ConnectTokenEncoder::from_api_key_id`.  The ambient current directory and
(optional) home directory are explicit inputs. -/
def ConnectTokenEncoder.from_api_key_id (fs : FileSystem) (cwd : String)
    (home : Option String) (key_id issuer_id : String) :
    Except AppleCodesignError ConnectTokenEncoder :=
  search_auth_key fs key_id issuer_id (search_paths cwd home)

/-- `ConnectTokenEncoder::new_token`.  `now` is the clock reading
`SystemTime::now().duration_since(UNIX_EPOCH).as_secs()` (a `u64`); the expiry
is the unchecked `u64` sum `now + duration`, which wraps modulo `2 ^ 64`. -/
def ConnectTokenEncoder.new_token (self : ConnectTokenEncoder)
    (now duration : Nat) : AppStoreConnectToken :=
  { header := { kid := some self.key_id, alg := .ES256 }
    claims :=
      { iss := self.issuer_id
        iat := now
        exp := (now + duration) % U64_MOD
        aud := "appstoreconnect-v1" }
    key := self.encoding_key }

/-- `NewSubmissionRequestNotification`. -/
structure NewSubmissionRequestNotification where
  channel : String
  target : String
  deriving DecidableEq

/-- `Serialize` for `NewSubmissionRequestNotification` (camelCase). -/
def NewSubmissionRequestNotification.toJson
    (self : NewSubmissionRequestNotification) : Json :=
  .obj [("channel", .str self.channel), ("target", .str self.target)]

/-- `NewSubmissionRequest`. -/
structure NewSubmissionRequest where
  notifications : List NewSubmissionRequestNotification
  sha256 : String
  submission_name : String
  deriving DecidableEq

/-- `Serialize` for `NewSubmissionRequest` (camelCase: `submission_name`
serializes as `submissionName`). -/
def NewSubmissionRequest.toJson (self : NewSubmissionRequest) : Json :=
  .obj [("notifications", .arr (self.notifications.map
          NewSubmissionRequestNotification.toJson)),
        ("sha256", .str self.sha256),
        ("submissionName", .str self.submission_name)]

/-- `NewSubmissionResponseDataAttributes`: the upload credentials. -/
structure NewSubmissionResponseDataAttributes where
  aws_access_key_id : String
  aws_secret_access_key : String
  aws_session_token : String
  bucket : String
  object : String

/-- `Deserialize` for `NewSubmissionResponseDataAttributes` (camelCase). -/
def NewSubmissionResponseDataAttributes.fromJson (j : Json) :
    Option NewSubmissionResponseDataAttributes :=
  match j with
  | .obj fields => do
    let aws_access_key_id ← (Json.getField fields "awsAccessKeyId").bind Json.asStr
    let aws_secret_access_key ← (Json.getField fields "awsSecretAccessKey").bind Json.asStr
    let aws_session_token ← (Json.getField fields "awsSessionToken").bind Json.asStr
    let bucket ← (Json.getField fields "bucket").bind Json.asStr
    let object ← (Json.getField fields "object").bind Json.asStr
    pure ⟨aws_access_key_id, aws_secret_access_key, aws_session_token, bucket, object⟩
  | _ => none

/-- `NewSubmissionResponseData`. -/
structure NewSubmissionResponseData where
  attributes : NewSubmissionResponseDataAttributes
  id : String
  type : String

/-- `Deserialize` for `NewSubmissionResponseData` (camelCase). -/
def NewSubmissionResponseData.fromJson (j : Json) :
    Option NewSubmissionResponseData :=
  match j with
  | .obj fields => do
    let attributes ← (Json.getField fields "attributes").bind
      NewSubmissionResponseDataAttributes.fromJson
    let id ← (Json.getField fields "id").bind Json.asStr
    let type ← (Json.getField fields "type").bind Json.asStr
    pure ⟨attributes, id, type⟩
  | _ => none

/-- `NewSubmissionResponse`. -/
structure NewSubmissionResponse where
  data : NewSubmissionResponseData
  meta : Json

/-- `Deserialize` for `NewSubmissionResponse` (camelCase). -/
def NewSubmissionResponse.fromJson (j : Json) : Option NewSubmissionResponse :=
  match j with
  | .obj fields => do
    let data ← (Json.getField fields "data").bind NewSubmissionResponseData.fromJson
    let meta ← Json.getField fields "meta"
    pure ⟨data, meta⟩
  | _ => none

/-- The fixed Notary API base endpoint. -/
def APPLE_NOTARY_SUBMIT_SOFTWARE_URL : String :=
  "https://appstoreconnect.apple.com/notary/v2/submissions"

/-- `SubmissionResponseStatus`: the submission status enumeration. -/
inductive SubmissionResponseStatus where
  | Accepted : SubmissionResponseStatus
  | InProgress : SubmissionResponseStatus
  | Invalid : SubmissionResponseStatus
  | Rejected : SubmissionResponseStatus
  | Unknown : SubmissionResponseStatus
  deriving DecidableEq

/-- `Deserialize` for `SubmissionResponseStatus` from the status string:
PascalCase variant names, `InProgress` renamed to `"In Progress"`, and the
`#[serde(other)]` catch-all sending every other string to `Unknown`. -/
def SubmissionResponseStatus.fromString (s : String) : SubmissionResponseStatus :=
  if s = "Accepted" then .Accepted
  else if s = "In Progress" then .InProgress
  else if s = "Invalid" then .Invalid
  else if s = "Rejected" then .Rejected
  else .Unknown

/-- `Deserialize` for `SubmissionResponseStatus` from a JSON value: the value
must be a string; any string deserializes successfully. -/
def SubmissionResponseStatus.fromJson (j : Json) : Option SubmissionResponseStatus :=
  (j.asStr).map SubmissionResponseStatus.fromString

/-- `SubmissionResponseDataAttributes`. -/
structure SubmissionResponseDataAttributes where
  created_date : String
  name : String
  status : SubmissionResponseStatus

/-- `Deserialize` for `SubmissionResponseDataAttributes` (camelCase). -/
def SubmissionResponseDataAttributes.fromJson (j : Json) :
    Option SubmissionResponseDataAttributes :=
  match j with
  | .obj fields => do
    let created_date ← (Json.getField fields "createdDate").bind Json.asStr
    let name ← (Json.getField fields "name").bind Json.asStr
    let status ← (Json.getField fields "status").bind SubmissionResponseStatus.fromJson
    pure ⟨created_date, name, status⟩
  | _ => none

/-- `SubmissionResponseData`. -/
structure SubmissionResponseData where
  attributes : SubmissionResponseDataAttributes
  id : String
  type : String

/-- `Deserialize` for `SubmissionResponseData` (camelCase). -/
def SubmissionResponseData.fromJson (j : Json) : Option SubmissionResponseData :=
  match j with
  | .obj fields => do
    let attributes ← (Json.getField fields "attributes").bind
      SubmissionResponseDataAttributes.fromJson
    let id ← (Json.getField fields "id").bind Json.asStr
    let type ← (Json.getField fields "type").bind Json.asStr
    pure ⟨attributes, id, type⟩
  | _ => none

/-- `SubmissionResponse`. -/
structure SubmissionResponse where
  data : SubmissionResponseData
  meta : Json

/-- `Deserialize` for `SubmissionResponse` (camelCase). -/
def SubmissionResponse.fromJson (j : Json) : Option SubmissionResponse :=
  match j with
  | .obj fields => do
    let data ← (Json.getField fields "data").bind SubmissionResponseData.fromJson
    let meta ← Json.getField fields "meta"
    pure ⟨data, meta⟩
  | _ => none

/-- `SubmissionResponse::into_result`. -/
def SubmissionResponse.into_result (self : SubmissionResponse) :
    Except AppleCodesignError SubmissionResponse :=
  match self.data.attributes.status with
  | .Accepted => .ok self
  | .InProgress => .error .notarizeIncomplete
  | .Invalid => .error .notarizeInvalid
  | .Rejected => .error (.notarizeRejected 0 "Notarization error")
  | .Unknown => .error .notarizeInvalid

/-- `SubmissionLogResponseDataAttributes`. -/
structure SubmissionLogResponseDataAttributes where
  developer_log_url : String

/-- `Deserialize` for `SubmissionLogResponseDataAttributes` (camelCase). -/
def SubmissionLogResponseDataAttributes.fromJson (j : Json) :
    Option SubmissionLogResponseDataAttributes :=
  match j with
  | .obj fields => do
    let developer_log_url ← (Json.getField fields "developerLogUrl").bind Json.asStr
    pure ⟨developer_log_url⟩
  | _ => none

/-- `SubmissionLogResponseData`. -/
structure SubmissionLogResponseData where
  attributes : SubmissionLogResponseDataAttributes
  id : String
  type : String

/-- `Deserialize` for `SubmissionLogResponseData` (camelCase). -/
def SubmissionLogResponseData.fromJson (j : Json) :
    Option SubmissionLogResponseData :=
  match j with
  | .obj fields => do
    let attributes ← (Json.getField fields "attributes").bind
      SubmissionLogResponseDataAttributes.fromJson
    let id ← (Json.getField fields "id").bind Json.asStr
    let type ← (Json.getField fields "type").bind Json.asStr
    pure ⟨attributes, id, type⟩
  | _ => none

/-- `SubmissionLogResponse`. -/
structure SubmissionLogResponse where
  data : SubmissionLogResponseData
  meta : Json

/-- `Deserialize` for `SubmissionLogResponse` (camelCase). -/
def SubmissionLogResponse.fromJson (j : Json) : Option SubmissionLogResponse :=
  match j with
  | .obj fields => do
    let data ← (Json.getField fields "data").bind SubmissionLogResponseData.fromJson
    let meta ← Json.getField fields "meta"
    pure ⟨data, meta⟩
  | _ => none

/-- HTTP request methods used by the client. -/
inductive HttpMethod where
  | GET : HttpMethod
  | POST : HttpMethod
  deriving DecidableEq

/-- An outbound HTTP request as the client builds it: method, URL, optional
bearer token, the `Accept` and `Content-Type` headers when set, and the JSON
body when present. -/
structure HttpRequest where
  method : HttpMethod
  url : String
  bearer : Option AppStoreConnectToken
  accept : Option String
  content_type : Option String
  body : Option Json

/-- An inbound HTTP response: status code and body at the JSON-value level. -/
structure HttpResponse where
  status : Nat
  body : Json

/-- `AppStoreConnectClient` state: the token encoder and the single
mutex-protected cache slot `token: Mutex<Option<AppStoreConnectToken>>`.
`mint_count` is a ghost counter recording how many times `new_token` has been
invoked through this client. -/
structure AppStoreConnectClient where
  connect_token : ConnectTokenEncoder
  token : Option AppStoreConnectToken
  mint_count : Nat

/-- `AppStoreConnectClient::new`: empty cache slot. -/
def AppStoreConnectClient.new (connect_token : ConnectTokenEncoder) :
    AppStoreConnectClient :=
  ⟨connect_token, none, 0⟩

/-- `AppStoreConnectClient::get_token`: under the mutex, mint a 300-second
token if the slot is empty, then return a clone of the cached token. -/
def AppStoreConnectClient.get_token (self : AppStoreConnectClient) (now : Nat) :
    AppStoreConnectToken × AppStoreConnectClient :=
  match self.token with
  | some t => (t, self)
  | none =>
    let t := self.connect_token.new_token now 300
    (t, { self with token := some t, mint_count := self.mint_count + 1 })

/-- `AppStoreConnectClient::create_submission`.  Returns the result, the
updated client state and the list of HTTP requests issued. -/
def AppStoreConnectClient.create_submission (self : AppStoreConnectClient)
    (now : Nat) (sha256 submission_name : String) (response : HttpResponse) :
    Except AppleCodesignError NewSubmissionResponse × AppStoreConnectClient × List HttpRequest :=
  let (token, client) := self.get_token now
  let body : NewSubmissionRequest := ⟨[], sha256, submission_name⟩
  let req : HttpRequest :=
    { method := .POST
      url := APPLE_NOTARY_SUBMIT_SOFTWARE_URL
      bearer := some token
      accept := some "application/json"
      content_type := some "application/json"
      body := some body.toJson }
  if response.status = 200 then
    match NewSubmissionResponse.fromJson response.body with
    | some res_data => (.ok res_data, client, [req])
    | none => (.error .jsonDecodeError, client, [req])
  else
    (.error .notarizeServerError, client, [req])

/-- `AppStoreConnectClient::get_submission`. -/
def AppStoreConnectClient.get_submission (self : AppStoreConnectClient)
    (now : Nat) (submission_id : String) (response : HttpResponse) :
    Except AppleCodesignError SubmissionResponse × AppStoreConnectClient × List HttpRequest :=
  let (token, client) := self.get_token now
  let req : HttpRequest :=
    { method := .GET
      url := APPLE_NOTARY_SUBMIT_SOFTWARE_URL ++ "/" ++ submission_id
      bearer := some token
      accept := some "application/json"
      content_type := none
      body := none }
  match SubmissionResponse.fromJson response.body with
  | some res_data => (.ok res_data, client, [req])
  | none => (.error .jsonDecodeError, client, [req])

/-- `AppStoreConnectClient::get_submission_log`: resolve the developer log URL
from the submission id (authenticated GET), then fetch that URL with a bare
GET carrying no bearer token and no headers; the second body is returned as an
arbitrary JSON value. -/
def AppStoreConnectClient.get_submission_log (self : AppStoreConnectClient)
    (now : Nat) (submission_id : String) (response1 response2 : HttpResponse) :
    Except AppleCodesignError Json × AppStoreConnectClient × List HttpRequest :=
  let (token, client) := self.get_token now
  let req1 : HttpRequest :=
    { method := .GET
      url := APPLE_NOTARY_SUBMIT_SOFTWARE_URL ++ "/" ++ submission_id ++ "/logs"
      bearer := some token
      accept := some "application/json"
      content_type := none
      body := none }
  match SubmissionLogResponse.fromJson response1.body with
  | some res_data =>
    let req2 : HttpRequest :=
      { method := .GET
        url := res_data.data.attributes.developer_log_url
        bearer := none
        accept := none
        content_type := none
        body := none }
    (.ok response2.body, client, [req1, req2])
  | none => (.error .jsonDecodeError, client, [req1])

/-- One call against the client: each public operation with the response(s)
the transport would deliver for it. -/
inductive NotaryOp where
  | create (sha256 submission_name : String) (response : HttpResponse) : NotaryOp
  | fetchStatus (submission_id : String) (response : HttpResponse) : NotaryOp
  | fetchLog (submission_id : String) (response1 response2 : HttpResponse) : NotaryOp

/-- Run one operation, keeping the state transition and the request trace. -/
def AppStoreConnectClient.run_op (self : AppStoreConnectClient) (now : Nat) :
    NotaryOp → AppStoreConnectClient × List HttpRequest
  | .create sha256 submission_name response =>
    let (_, client, trace) := self.create_submission now sha256 submission_name response
    (client, trace)
  | .fetchStatus submission_id response =>
    let (_, client, trace) := self.get_submission now submission_id response
    (client, trace)
  | .fetchLog submission_id response1 response2 =>
    let (_, client, trace) := self.get_submission_log now submission_id response1 response2
    (client, trace)

/-- Run a sequence of operations, each with its own clock reading,
concatenating the request traces. -/
def AppStoreConnectClient.run_ops (self : AppStoreConnectClient) :
    List (Nat × NotaryOp) → AppStoreConnectClient × List HttpRequest
  | [] => (self, [])
  | (now, op) :: rest =>
    let (client, trace) := self.run_op now op
    let (client2, trace2) := client.run_ops rest
    (client2, trace ++ trace2)

/-- A sample signing identity used by concrete witnesses. -/
def sample_encoder : ConnectTokenEncoder :=
  ConnectTokenEncoder.from_jwt_encoding_key "DEADBEEF42" "issuer-uuid" ⟨[1, 2, 3]⟩

/-- A sample client (fresh cache slot) used by concrete witnesses. -/
def sample_client : AppStoreConnectClient :=
  AppStoreConnectClient.new sample_encoder

/-- A sample well-formed submission-log reference body. -/
def sample_log_reference_body : Json :=
  Json.obj
    [("data", Json.obj
        [("attributes", Json.obj
            [("developerLogUrl", Json.str "https://example.com/log.json")]),
         ("id", Json.str "sub-1"),
         ("type", Json.str "submissionLog")]),
     ("meta", Json.null)]

/-- The decoded form of `sample_log_reference_body`. -/
def sample_log_reference : SubmissionLogResponse :=
  ⟨⟨⟨"https://example.com/log.json"⟩, "sub-1", "submissionLog"⟩, Json.null⟩

/-- C1 (counterexample): `into_result` maps both the `Invalid` status and the
`Unknown` status to the very same error value `notarizeInvalid`, so a caller
cannot distinguish the "permanently invalid" outcome from the "unrecognized
status" outcome, contrary to the claim. -/
theorem into_result_invalid_unknown_same_error :
    SubmissionResponse.into_result ⟨⟨⟨"2024-01-01", "MyApp.dmg", .Invalid⟩, "id-1", "submissions"⟩, .null⟩
        = .error .notarizeInvalid ∧
    SubmissionResponse.into_result ⟨⟨⟨"2024-01-01", "MyApp.dmg", .Unknown⟩, "id-1", "submissions"⟩, .null⟩
        = .error .notarizeInvalid := by
  exact ⟨rfl, rfl⟩

/-- C1 (amended): `into_result` is total and deterministic; it succeeds exactly
when the status is `Accepted`; `InProgress` yields the distinguishable retry
signal `notarizeIncomplete`; `Rejected` yields the distinct terminal error
`notarizeRejected 0 "Notarization error"`; but `Invalid` and `Unknown` both
yield the same terminal error `notarizeInvalid`, so those two outcomes are not
mutually distinguishable. -/
theorem into_result_classification (r : SubmissionResponse) :
    (r.into_result = .ok r ↔ r.data.attributes.status = .Accepted) ∧
    (r.into_result = .error .notarizeIncomplete ↔ r.data.attributes.status = .InProgress) ∧
    (r.into_result = .error (.notarizeRejected 0 "Notarization error") ↔
      r.data.attributes.status = .Rejected) ∧
    (r.into_result = .error .notarizeInvalid ↔
      (r.data.attributes.status = .Invalid ∨ r.data.attributes.status = .Unknown)) := by
  rcases h : r.data.attributes.status <;>
    simp [SubmissionResponse.into_result, h]

/-- C2 (counterexample): the expiry is computed by unchecked `u64` addition,
so at clock reading `2 ^ 64 - 1` and duration `1` the minted token's `exp` is
not `iat + 1` (it has wrapped to `0`). -/
theorem new_token_exp_wraps_counterexample :
    (sample_encoder.new_token (U64_MOD - 1) 1).claims.exp = 0 ∧
    (sample_encoder.new_token (U64_MOD - 1) 1).claims.exp ≠
      (sample_encoder.new_token (U64_MOD - 1) 1).claims.iat + 1 := by
  constructor
  · decide
  · decide

/-- C2 (amended): for every signing identity, clock reading and duration whose
sum stays below `2 ^ 64`, the minted token's header carries exactly the
identity's key id with algorithm ES256, and its payload has `iss` equal to the
identity's issuer id, `iat` equal to the clock reading, `exp` equal to
`iat + duration` exactly, and `aud` equal to `"appstoreconnect-v1"`; when the
sum reaches `2 ^ 64` the expiry instead wraps modulo `2 ^ 64`. -/
theorem new_token_fields (enc : ConnectTokenEncoder) (now d : Nat)
    (h : now + d < U64_MOD) :
    (enc.new_token now d).header.kid = some enc.key_id ∧
    (enc.new_token now d).header.alg = .ES256 ∧
    (enc.new_token now d).claims.iss = enc.issuer_id ∧
    (enc.new_token now d).claims.iat = now ∧
    (enc.new_token now d).claims.exp = now + d ∧
    (enc.new_token now d).claims.aud = "appstoreconnect-v1" := by
  refine ⟨rfl, rfl, rfl, rfl, ?_, rfl⟩
  simp [ConnectTokenEncoder.new_token, Nat.mod_eq_of_lt h]

/-- C2 (witness): the amended theorem at a concrete identity, a realistic
clock reading and the 300-second duration. -/
theorem new_token_fields_witness :
    (1700000000 : Nat) + 300 < U64_MOD ∧
    (sample_encoder.new_token 1700000000 300).claims.exp = 1700000000 + 300 :=
  ⟨by decide, (new_token_fields sample_encoder 1700000000 300 (by decide)).2.2.2.2.1⟩

/-- C10 (confirmed): no upper bound on the duration is enforced, and whenever
`iat + duration` reaches `2 ^ 64` the computed expiry is the sum reduced
modulo `2 ^ 64`, which differs from the exact integer sum. -/
theorem new_token_exp_overflow (enc : ConnectTokenEncoder) (now d : Nat)
    (h : U64_MOD ≤ now + d) :
    (enc.new_token now d).claims.exp = (now + d) % U64_MOD ∧
    (enc.new_token now d).claims.exp ≠ now + d := by
  refine ⟨rfl, ?_⟩
  have hpos : 0 < U64_MOD := by
    simp [U64_MOD]
  have hlt : (now + d) % U64_MOD < U64_MOD := Nat.mod_lt _ hpos
  intro hEq
  have : (enc.new_token now d).claims.exp = (now + d) % U64_MOD := rfl
  omega

/-- C10 (witness): the overflow theorem at a realistic clock reading and the
maximal `u64` duration. -/
theorem new_token_exp_overflow_witness :
    U64_MOD ≤ 1700000000 + (U64_MOD - 1) ∧
    (sample_encoder.new_token 1700000000 (U64_MOD - 1)).claims.exp ≠
      1700000000 + (U64_MOD - 1) :=
  ⟨by decide, (new_token_exp_overflow sample_encoder 1700000000 (U64_MOD - 1) (by decide)).2⟩

/-- C8 (confirmed): status deserialization is total over all strings — the
four recognized strings map to their variants, every other string maps to the
`Unknown` catch-all rather than failing, and an `Unknown` status is treated as
non-success by `into_result`. -/
theorem submission_status_deserialization_total :
    SubmissionResponseStatus.fromString "Accepted" = .Accepted ∧
    SubmissionResponseStatus.fromString "In Progress" = .InProgress ∧
    SubmissionResponseStatus.fromString "Invalid" = .Invalid ∧
    SubmissionResponseStatus.fromString "Rejected" = .Rejected ∧
    (∀ s : String, s ≠ "Accepted" → s ≠ "In Progress" → s ≠ "Invalid" →
      s ≠ "Rejected" → SubmissionResponseStatus.fromString s = .Unknown) ∧
    (∀ r : SubmissionResponse, r.data.attributes.status = .Unknown →
      r.into_result = .error .notarizeInvalid) := by
  refine ⟨rfl, rfl, rfl, rfl, ?_, ?_⟩
  · intro s h1 h2 h3 h4
    simp [SubmissionResponseStatus.fromString, h1, h2, h3, h4]
  · intro r h
    simp [SubmissionResponse.into_result, h]

/-- C4 (counterexample): an HTTP 200 response whose body does not deserialize
as a submission record makes `create_submission` fail, so "succeeds if and
only if the HTTP response status is exactly 200" does not hold: status 200 is
necessary but not sufficient. -/
theorem create_submission_200_bad_body_fails :
    (sample_client.create_submission 0 "digest" "MyApp.dmg" ⟨200, Json.null⟩).1 =
      .error .jsonDecodeError := by
  rfl

/-- C4 (amended): `create_submission` succeeds if and only if the HTTP status
is exactly 200 and the body deserializes as the submission record, in which
case that record is returned; for any non-200 status the result is the
generic `notarizeServerError`, independent of the response body (the body is
never parsed as a vendor error schema), and no record is returned. -/
theorem create_submission_status_characterization (self : AppStoreConnectClient)
    (now : Nat) (sha256 submission_name : String) (st : Nat) (b : Json) :
    (st = 200 →
      (self.create_submission now sha256 submission_name ⟨st, b⟩).1 =
        match NewSubmissionResponse.fromJson b with
        | some r => .ok r
        | none => .error .jsonDecodeError) ∧
    (st ≠ 200 →
      (self.create_submission now sha256 submission_name ⟨st, b⟩).1 =
        .error .notarizeServerError) := by
  constructor
  · intro h
    subst h
    simp only [AppStoreConnectClient.create_submission]
    cases NewSubmissionResponse.fromJson b <;> simp
  · intro h
    simp [AppStoreConnectClient.create_submission, h]

/-- C7 (confirmed): for every digest and submission name,
`create_submission` issues exactly one request: an authenticated POST to the
fixed submissions endpoint with `Accept` and `Content-Type` set to
`application/json`, whose JSON body contains exactly an empty notification
list, the given digest and the given submission name, serialized in lower
camel case. -/
theorem create_submission_request_shape (self : AppStoreConnectClient)
    (now : Nat) (sha256 submission_name : String) (response : HttpResponse) :
    (self.create_submission now sha256 submission_name response).2.2 =
      [{ method := .POST
         url := APPLE_NOTARY_SUBMIT_SOFTWARE_URL
         bearer := some (self.get_token now).1
         accept := some "application/json"
         content_type := some "application/json"
         body := some (Json.obj
           [("notifications", .arr []),
            ("sha256", .str sha256),
            ("submissionName", .str submission_name)]) }] := by
  simp only [AppStoreConnectClient.create_submission, NewSubmissionRequest.toJson,
    List.map_nil]
  by_cases h : response.status = 200
  · simp only [h, if_true]
    cases NewSubmissionResponse.fromJson response.body <;> rfl
  · simp [h]

/-- C9 (confirmed): when no home directory can be resolved, `from_api_key_id`
searches only the single candidate location — the current working directory
joined with `private_keys` — and returns the not-found error as soon as that
one candidate is absent. -/
theorem from_api_key_id_no_home (fs : FileSystem) (cwd key_id issuer_id : String) :
    search_paths cwd none = [path_join cwd "private_keys"] ∧
    ConnectTokenEncoder.from_api_key_id fs cwd none key_id issuer_id =
      (if (fs (path_join (path_join cwd "private_keys") (auth_key_filename key_id))).isSome then
        ConnectTokenEncoder.from_ecdsa_pem_path fs key_id issuer_id
          (path_join (path_join cwd "private_keys") (auth_key_filename key_id))
      else .error .appStoreConnectApiKeyNotFound) := by
  refine ⟨rfl, ?_⟩
  simp only [ConnectTokenEncoder.from_api_key_id, search_paths, search_auth_key,
    List.append_nil]

/-- C5 (confirmed): with a resolvable home directory, `from_api_key_id`
searches for `AuthKey_<key id>.p8` in exactly the four conventional locations
in their fixed order, loads the first existing candidate, and returns the
not-found error exactly when every one of the four candidates is absent. -/
theorem from_api_key_id_search_order (fs : FileSystem)
    (cwd home_dir key_id issuer_id : String) :
    search_paths cwd (some home_dir) =
      [path_join cwd "private_keys",
       path_join home_dir "private_keys",
       path_join home_dir ".private_keys",
       path_join (path_join home_dir ".appstoreconnect") "private_keys"] ∧
    ConnectTokenEncoder.from_api_key_id fs cwd (some home_dir) key_id issuer_id =
      (if (fs (path_join (path_join cwd "private_keys") (auth_key_filename key_id))).isSome then
        ConnectTokenEncoder.from_ecdsa_pem_path fs key_id issuer_id
          (path_join (path_join cwd "private_keys") (auth_key_filename key_id))
      else if (fs (path_join (path_join home_dir "private_keys") (auth_key_filename key_id))).isSome then
        ConnectTokenEncoder.from_ecdsa_pem_path fs key_id issuer_id
          (path_join (path_join home_dir "private_keys") (auth_key_filename key_id))
      else if (fs (path_join (path_join home_dir ".private_keys") (auth_key_filename key_id))).isSome then
        ConnectTokenEncoder.from_ecdsa_pem_path fs key_id issuer_id
          (path_join (path_join home_dir ".private_keys") (auth_key_filename key_id))
      else if (fs (path_join (path_join (path_join home_dir ".appstoreconnect") "private_keys") (auth_key_filename key_id))).isSome then
        ConnectTokenEncoder.from_ecdsa_pem_path fs key_id issuer_id
          (path_join (path_join (path_join home_dir ".appstoreconnect") "private_keys") (auth_key_filename key_id))
      else .error .appStoreConnectApiKeyNotFound) ∧
    (ConnectTokenEncoder.from_api_key_id fs cwd (some home_dir) key_id issuer_id =
        .error .appStoreConnectApiKeyNotFound ↔
      (fs (path_join (path_join cwd "private_keys") (auth_key_filename key_id)) = none ∧
       fs (path_join (path_join home_dir "private_keys") (auth_key_filename key_id)) = none ∧
       fs (path_join (path_join home_dir ".private_keys") (auth_key_filename key_id)) = none ∧
       fs (path_join (path_join (path_join home_dir ".appstoreconnect") "private_keys") (auth_key_filename key_id)) = none)) := by
  refine ⟨rfl, ?_, ?_⟩
  · simp only [ConnectTokenEncoder.from_api_key_id, search_paths, search_auth_key,
      List.cons_append, List.nil_append]
  · simp only [ConnectTokenEncoder.from_api_key_id, search_paths, search_auth_key,
      List.cons_append, List.nil_append]
    rcases h1 : fs (path_join (path_join cwd "private_keys") (auth_key_filename key_id)) with _ | d1 <;>
    rcases h2 : fs (path_join (path_join home_dir "private_keys") (auth_key_filename key_id)) with _ | d2 <;>
    rcases h3 : fs (path_join (path_join home_dir ".private_keys") (auth_key_filename key_id)) with _ | d3 <;>
    rcases h4 : fs (path_join (path_join (path_join home_dir ".appstoreconnect") "private_keys") (auth_key_filename key_id)) with _ | d4 <;>
      simp [h1, h2, h3, h4, ConnectTokenEncoder.from_ecdsa_pem_path,
        ConnectTokenEncoder.from_ecdsa_pem]

/-- C6 (confirmed): whenever the first response resolves to a log reference,
`get_submission_log` issues exactly two GETs in order — the first carrying the
bearer credential to the per-id `/logs` endpoint, the second to the resolved
developer log URL with no bearer credential and no headers — and returns the
second response's body as an arbitrary JSON value, unmodified and not
validated against any local schema. -/
theorem get_submission_log_two_fetches (self : AppStoreConnectClient)
    (now : Nat) (submission_id : String) (response1 response2 : HttpResponse)
    (r : SubmissionLogResponse)
    (h : SubmissionLogResponse.fromJson response1.body = some r) :
    self.get_submission_log now submission_id response1 response2 =
      (.ok response2.body, (self.get_token now).2,
        [{ method := .GET
           url := APPLE_NOTARY_SUBMIT_SOFTWARE_URL ++ "/" ++ submission_id ++ "/logs"
           bearer := some (self.get_token now).1
           accept := some "application/json"
           content_type := none
           body := none },
         { method := .GET
           url := r.data.attributes.developer_log_url
           bearer := none
           accept := none
           content_type := none
           body := none }]) := by
  simp only [AppStoreConnectClient.get_submission_log, h]

/-- C6 (witness): the two-fetch theorem at a concrete client, submission id
and concrete well-formed responses. -/
theorem get_submission_log_two_fetches_witness :
    SubmissionLogResponse.fromJson (HttpResponse.mk 200 sample_log_reference_body).body =
      some sample_log_reference ∧
    (sample_client.get_submission_log 7 "sub-1" ⟨200, sample_log_reference_body⟩
        ⟨200, .str "log-text"⟩).1 = .ok (Json.str "log-text") :=
  ⟨by rfl,
   by
    have h := get_submission_log_two_fetches sample_client 7 "sub-1"
      ⟨200, sample_log_reference_body⟩ ⟨200, .str "log-text"⟩ sample_log_reference (by rfl)
    rw [h]⟩

/-- `get_token` on a filled cache slot returns the cached token and leaves the
client unchanged. -/
theorem get_token_cached (self : AppStoreConnectClient) (now : Nat)
    (t : AppStoreConnectToken) (h : self.token = some t) :
    self.get_token now = (t, self) := by
  simp [AppStoreConnectClient.get_token, h]

/-- `get_token` on an empty cache slot mints one 300-second token, stores it
and returns it. -/
theorem get_token_uncached (self : AppStoreConnectClient) (now : Nat)
    (h : self.token = none) :
    self.get_token now = (self.connect_token.new_token now 300,
      { self with token := some (self.connect_token.new_token now 300),
                  mint_count := self.mint_count + 1 }) := by
  simp [AppStoreConnectClient.get_token, h]

/-- Each operation changes the client state exactly as its single `get_token`
call does, and every bearer credential it transmits is the token that
`get_token` returned. -/
theorem run_op_state_trace (self : AppStoreConnectClient) (now : Nat) (op : NotaryOp) :
    (self.run_op now op).1 = (self.get_token now).2 ∧
    ∀ r ∈ (self.run_op now op).2,
      r.bearer = none ∨ r.bearer = some (self.get_token now).1 := by
  cases op with
  | create sha256 submission_name response =>
    simp only [AppStoreConnectClient.run_op, AppStoreConnectClient.create_submission]
    by_cases h : response.status = 200
    · simp only [h, if_true]
      cases NewSubmissionResponse.fromJson response.body <;> simp
    · simp [h]
  | fetchStatus submission_id response =>
    simp only [AppStoreConnectClient.run_op, AppStoreConnectClient.get_submission]
    cases SubmissionResponse.fromJson response.body <;> simp
  | fetchLog submission_id response1 response2 =>
    simp only [AppStoreConnectClient.run_op, AppStoreConnectClient.get_submission_log]
    cases SubmissionLogResponse.fromJson response1.body <;> simp

/-- Unfolding one step of `run_ops`. -/
theorem run_ops_cons (self : AppStoreConnectClient) (now : Nat) (op : NotaryOp)
    (rest : List (Nat × NotaryOp)) :
    self.run_ops ((now, op) :: rest) =
      (((self.run_op now op).1.run_ops rest).1,
       (self.run_op now op).2 ++ ((self.run_op now op).1.run_ops rest).2) := by
  rfl

/-- Once the cache slot is filled, any further sequence of operations leaves
the client state untouched and transmits only the cached token. -/
theorem run_ops_cached (rest : List (Nat × NotaryOp)) (self : AppStoreConnectClient)
    (t : AppStoreConnectToken) (h : self.token = some t) :
    (self.run_ops rest).1 = self ∧
    ∀ r ∈ (self.run_ops rest).2, r.bearer = none ∨ r.bearer = some t := by
  induction rest with
  | nil =>
    refine ⟨rfl, ?_⟩
    intro r hr
    simp [AppStoreConnectClient.run_ops] at hr
  | cons a rest2 ih =>
    rcases a with ⟨now, op⟩
    have hop := run_op_state_trace self now op
    have hgt := get_token_cached self now t h
    have hstate : (self.run_op now op).1 = self := by rw [hop.1, hgt]
    rw [run_ops_cons, hstate]
    refine ⟨ih.1, ?_⟩
    intro r hr
    rcases List.mem_append.mp hr with hr1 | hr2
    · have := hop.2 r hr1
      rw [hgt] at this
      exact this
    · exact ih.2 r hr2

/-- C3 (confirmed): over any non-empty sequence of client operations starting
from a fresh client, exactly one mint occurs (with the fixed 300-second
duration, at the first operation's clock reading), the cache slot ends up
holding exactly that token, and every bearer credential transmitted by any
request in the whole run is that single cached token. -/
theorem client_single_mint (enc : ConnectTokenEncoder) (now : Nat) (op : NotaryOp)
    (rest : List (Nat × NotaryOp)) :
    ((AppStoreConnectClient.new enc).run_ops ((now, op) :: rest)).1.mint_count = 1 ∧
    ((AppStoreConnectClient.new enc).run_ops ((now, op) :: rest)).1.token =
      some (enc.new_token now 300) ∧
    ∀ r ∈ ((AppStoreConnectClient.new enc).run_ops ((now, op) :: rest)).2,
      r.bearer = none ∨ r.bearer = some (enc.new_token now 300) := by
  have hfresh : (AppStoreConnectClient.new enc).token = none := rfl
  have hgt := get_token_uncached (AppStoreConnectClient.new enc) now hfresh
  have hop := run_op_state_trace (AppStoreConnectClient.new enc) now op
  have hstate : ((AppStoreConnectClient.new enc).run_op now op).1 =
      ⟨enc, some (enc.new_token now 300), 1⟩ := by
    rw [hop.1, hgt]
    rfl
  have hcached := run_ops_cached rest ⟨enc, some (enc.new_token now 300), 1⟩
    (enc.new_token now 300) rfl
  rw [run_ops_cons, hstate]
  refine ⟨?_, ?_, ?_⟩
  · rw [hcached.1]
  · rw [hcached.1]
  · intro r hr
    rcases List.mem_append.mp hr with hr1 | hr2
    · have := hop.2 r hr1
      rw [hgt] at this
      exact this
    · exact hcached.2 r hr2

end AppStoreConnect
